import Mathlib

set_option maxRecDepth 10000

/-!
Verification of the Agent_cv job-search assistant.

This file gives a shallow embedding, in Lean 4, of the parts of the
repository that the checked properties speak about:

* `src/src/agents/job_offer_analyzer.py` — skill matching and ATS scoring;
* `src/src/agents/cv_analyzer.py` — the CV analysis step (skip-if-analyzed);
* `src/src/agents/notification_agent.py` — e-mail validation, dispatch
  bookkeeping and the e-mail body builder;
* `src/app/utils/notification_logger.py` — the JSON history logger;
* `src/src/utils/rate_limiter.py` — the sliding-window rate limiter.

Python `str` is modelled by `String` / `List Char` (Python's `str.lower`
is modelled by the ASCII `String.toLower`; every string a theorem below
evaluates is ASCII or has no cased non-ASCII letters), Python floats by `ℚ`
(every arithmetic operation involved is exact on decimals), dicts by
structures with `Option` fields for keys that may be absent.  Side effects
(file writes, e-mail dispatch, sleeping) are modelled by explicit state
passing; fallible externals (the mail client, PDF text extraction) are
parameters of the functions that call them.
-/

namespace AgentCV

/-! ## List/string helpers shared by the embeddings -/

/-- Split a character list on a separator character, keeping empty pieces,
as Python's `str.split(sep)` does.  `splitOnChar '@' "a@@b"` is
`["a", "", "b"]`. -/
def splitOnChar (sep : Char) (l : List Char) : List (List Char) :=
  l.foldr
    (fun c acc =>
      match acc with
      | [] => [[c]]
      | h :: t => if c = sep then [] :: h :: t else (c :: h) :: t)
    [[]]

/-- Substring test: does `pat` occur contiguously inside `l`?  Models
Python's `in` on strings. -/
def containsSeq (pat l : List Char) : Bool :=
  (List.range (l.length + 1)).any (fun i => pat.isPrefixOf (l.drop i))

/-- Substring test on `String`, models Python's `pat in s`. -/
def containsSub (s pat : String) : Bool :=
  containsSeq pat.data s.data

/-- Python's `str.strip()`: drop whitespace from both ends. -/
def pyStrip (s : String) : String :=
  ⟨((s.data.dropWhile Char.isWhitespace).reverse.dropWhile Char.isWhitespace).reverse⟩

/-! ## `difflib.SequenceMatcher.ratio`

The job-offer analyzer's fuzzy skill matching calls
`SequenceMatcher(None, a, b).ratio()` from the Python standard library
(`job_offer_analyzer.py` line 270).  `ratio` is `2*M/T` where `T` is the
total length of the two strings and `M` the total size of the matching
blocks: the longest matching block is found (ties broken towards the
smallest start in `a`, then in `b`, as `find_longest_match`'s scan order
does), and the regions to its left and to its right are matched
recursively.  The skill strings involved are far below the 200-character
threshold at which `difflib`'s `autojunk` heuristic would activate, so no
junk handling applies. -/

/-- Length of the longest common block of `a` and `b` that ends exactly at
positions `i` (in `a`) and `j` (in `b`), not reaching below `alo`/`blo`. -/
def backMatch (a b : List Char) (alo blo i j : ℕ) : ℕ :=
  ((List.range (min (i + 1 - alo) (j + 1 - blo))).takeWhile
    (fun t => (a[i - t]?).isSome && a[i - t]? == b[j - t]?)).length

/-- The longest matching block of `a[alo:ahi]` and `b[blo:bhi]` as
`(i, j, size)`; among maximal blocks the one with the smallest end (hence
start) position in `a`, then in `b`, mirroring the update order of
`difflib`'s `find_longest_match` (strict `>` against the best size while
scanning `i` then `j` ascending). -/
def findLongestMatch (a b : List Char) (alo ahi blo bhi : ℕ) : ℕ × ℕ × ℕ :=
  (List.range (ahi - alo)).foldl
    (fun best di =>
      (List.range (bhi - blo)).foldl
        (fun best dj =>
          let i := alo + di
          let j := blo + dj
          let k := backMatch a b alo blo i j
          if best.2.2 < k then (i + 1 - k, j + 1 - k, k) else best)
        best)
    (alo, blo, 0)

/-- Total size of the matching blocks of `a[alo:ahi]` / `b[blo:bhi]`:
recursively the longest block plus the blocks of the regions left and
right of it.  `fuel` only bounds the recursion depth; every call strictly
shrinks the window sum, so `ahi + bhi + 1` fuel is always enough. -/
def mbSize (a b : List Char) : ℕ → ℕ → ℕ → ℕ → ℕ → ℕ
  | _, _, _, _, 0 => 0
  | alo, ahi, blo, bhi, fuel + 1 =>
    let r := findLongestMatch a b alo ahi blo bhi
    if r.2.2 = 0 then 0
    else
      mbSize a b alo r.1 blo r.2.1 fuel + r.2.2 +
        mbSize a b (r.1 + r.2.2) ahi (r.2.1 + r.2.2) bhi fuel

/-- `SequenceMatcher(None, s, t).ratio()`：`2*M/T`, and `1.0` when both
strings are empty (`difflib._calculate_ratio`). -/
def ratio (s t : String) : ℚ :=
  let a := s.data
  let b := t.data
  let total := a.length + b.length
  if total = 0 then 1
  else 2 * (mbSize a b 0 a.length 0 b.length (total + 1) : ℚ) / (total : ℚ)

/-! ## Python numeric conversions -/

/-- Python's `round(x)` on a rational: nearest integer, ties to the even
one (banker's rounding). -/
def roundHalfEven (q : ℚ) : ℤ :=
  if 2 * (q.num % (q.den : ℤ)) < (q.den : ℤ) then q.num / (q.den : ℤ)
  else if (q.den : ℤ) < 2 * (q.num % (q.den : ℤ)) then q.num / (q.den : ℤ) + 1
  else if (q.num / (q.den : ℤ)) % 2 = 0 then q.num / (q.den : ℤ)
  else q.num / (q.den : ℤ) + 1

/-- Python's `round(x, 4)`: round to 4 decimal places. -/
def pyRound4 (q : ℚ) : ℚ :=
  (roundHalfEven (q * 10000) : ℚ) / 10000

/-- Python's `int(x)`: truncation towards zero. -/
def pyInt (q : ℚ) : ℤ :=
  q.num.tdiv (q.den : ℤ)

lemma ediv_eq_floor (q : ℚ) : q.num / (q.den : ℤ) = ⌊q⌋ := Rat.floor_def.symm

lemma floor_lt_of_emod_pos (q : ℚ) (h : 0 < q.num % (q.den : ℤ)) : (⌊q⌋ : ℚ) < q := by
  rcases lt_or_eq_of_le (Int.floor_le q) with hlt | heq
  · exact hlt
  · exfalso
    have hden : q.den = 1 := by
      rw [← heq]
      exact Rat.den_intCast _
    rw [hden] at h
    simp [Int.emod_one] at h

lemma roundHalfEven_cases (q : ℚ) :
    roundHalfEven q = ⌊q⌋ ∨ (roundHalfEven q = ⌊q⌋ + 1 ∧ 0 < q.num % (q.den : ℤ)) := by
  have hd : (0 : ℤ) < (q.den : ℤ) := by exact_mod_cast q.den_pos
  unfold roundHalfEven
  rw [ediv_eq_floor]
  split_ifs with h1 h2 h3
  · exact Or.inl rfl
  · exact Or.inr ⟨rfl, by omega⟩
  · exact Or.inl rfl
  · exact Or.inr ⟨rfl, by omega⟩

lemma le_roundHalfEven {m : ℤ} {q : ℚ} (h : (m : ℚ) ≤ q) : m ≤ roundHalfEven q := by
  have hk : m ≤ ⌊q⌋ := Int.le_floor.mpr h
  rcases roundHalfEven_cases q with hc | ⟨hc, _⟩ <;> omega

lemma roundHalfEven_le {m : ℤ} {q : ℚ} (h : q ≤ (m : ℚ)) : roundHalfEven q ≤ m := by
  rcases roundHalfEven_cases q with hc | ⟨hc, hr⟩
  · have h1 : (⌊q⌋ : ℚ) ≤ (m : ℚ) := le_trans (Int.floor_le q) h
    have : ⌊q⌋ ≤ m := by exact_mod_cast h1
    omega
  · have h1 : (⌊q⌋ : ℚ) < (m : ℚ) := lt_of_lt_of_le (floor_lt_of_emod_pos q hr) h
    have : ⌊q⌋ < m := by exact_mod_cast h1
    omega

lemma pyRound4_le {c : ℤ} {q : ℚ} (h : q ≤ (c : ℚ) / 10000) : pyRound4 q ≤ (c : ℚ) / 10000 := by
  have h1 : q * 10000 ≤ (c : ℚ) := by
    have := mul_le_mul_of_nonneg_right h (by norm_num : (0 : ℚ) ≤ 10000)
    calc q * 10000 ≤ (c : ℚ) / 10000 * 10000 := this
      _ = (c : ℚ) := by ring
  have h2 : roundHalfEven (q * 10000) ≤ c := roundHalfEven_le h1
  unfold pyRound4
  have : ((roundHalfEven (q * 10000) : ℤ) : ℚ) ≤ (c : ℚ) := by exact_mod_cast h2
  linarith

lemma le_pyRound4 {c : ℤ} {q : ℚ} (h : (c : ℚ) / 10000 ≤ q) : (c : ℚ) / 10000 ≤ pyRound4 q := by
  have h1 : (c : ℚ) ≤ q * 10000 := by
    have := mul_le_mul_of_nonneg_right h (by norm_num : (0 : ℚ) ≤ 10000)
    calc (c : ℚ) = (c : ℚ) / 10000 * 10000 := by ring
      _ ≤ q * 10000 := this
  have h2 : c ≤ roundHalfEven (q * 10000) := le_roundHalfEven h1
  unfold pyRound4
  have : ((c : ℤ) : ℚ) ≤ ((roundHalfEven (q * 10000) : ℤ) : ℚ) := by exact_mod_cast h2
  linarith

lemma pyRound4_nonneg {q : ℚ} (h : 0 ≤ q) : 0 ≤ pyRound4 q := by
  have := le_pyRound4 (c := 0) (q := q) (by simpa using h)
  simpa using this

lemma pyRound4_le_one {q : ℚ} (h : q ≤ 1) : pyRound4 q ≤ 1 := by
  have := pyRound4_le (c := 10000) (q := q) (by norm_num [h])
  simpa using this

/-- Python's `str.lower()` (ASCII case folding, as `Char.toLower`). -/
def pyLower (s : String) : String :=
  ⟨s.data.map Char.toLower⟩

/-! ## Data model

The dict records the agents exchange (`cv_data.json` entries, offers,
extracted requirement dicts), as structures.  A key that code may find
absent is an `Option` field.  `Analysis` is the value
`CVAnalyzer.analyze_cvs` stores under `cv['analysis']`
(`cv_analyzer.py` lines 110–118): note it stores the education level under
the key `education`, while the ATS scorer reads the key `education_level`
(`job_offer_analyzer.py` line 333) — both keys are carried so that either
reader is representable. -/

structure Analysis where
  skills : List String
  experiences : List (String × String)
  years_experience : Option ℚ
  education : Option String
  education_level : Option String
  soft_skills : List String
  certifications : List String
  deriving DecidableEq

structure CV where
  name : Option String
  email : Option String
  path : Option String
  skills : Option (List String)
  preferences_remote : Option Bool
  analysis : Option Analysis
  deriving DecidableEq

structure Offer where
  title : String
  company : String
  description : String
  url : String
  location : String
  source : String
  created : String
  skills : List String
  deriving DecidableEq

/-- The requirement dict `JobOfferAnalyzer._extract_requirements` returns
(`job_offer_analyzer.py` lines 309–314).  Its construction from the offer
text goes through the regex extractors of `utils/nlp_extractors.py`; the
scoring claims hold for every requirement dict, so it is kept as data
here. -/
structure Reqs where
  required_years : ℚ
  required_education : String
  seniority : String
  skill_hints : List String
  deriving DecidableEq

/-- Python `x or d` for an optional string `x`: `d` when the key is absent
or the value is empty (falsy). -/
def orDefault (s : Option String) (d : String) : String :=
  match s with
  | some s => if s = "" then d else s
  | none => d

/-! ## Job-offer analyzer: skill matching
(`JobOfferAnalyzer._calculate_skill_match`, `job_offer_analyzer.py`
lines 244–280.) -/

/-- Normalisation the analyzer applies to each skill before matching
(`job_offer_analyzer.py` lines 124 and 131): `s.lower().strip()`. -/
def normSkill (s : String) : String :=
  pyStrip (pyLower s)

/-- One step of the inner fuzzy-match loop (`job_offer_analyzer.py` lines
269–273): keep the best candidate with similarity `> best_sim` and
`≥ 0.7`. -/
def fuzzyStep (reqSkill : String) (best : ℚ × Option String) (cvSkill : String) :
    ℚ × Option String :=
  if best.1 < ratio reqSkill cvSkill ∧ 7/10 ≤ ratio reqSkill cvSkill then
    (ratio reqSkill cvSkill, some cvSkill)
  else best

/-- The fuzzy-match loop over all candidate skills, from
`(best_sim, best_cv_skill) = (0.0, None)`. -/
def fuzzyBest (reqSkill : String) (cvSkills : List String) : ℚ × Option String :=
  cvSkills.foldl (fuzzyStep reqSkill) (0, none)

/-- One step of the outer loop over required skills: exact membership
first, else the fuzzy loop, annotating fuzzy matches
`"<required> (similar: <candidate>)"`.  The accumulator carries
`(matched, match_count)`. -/
def matchStep (cvSkills : List String) (acc : List String × ℕ) (reqSkill : String) :
    List String × ℕ :=
  if reqSkill ∈ cvSkills then (acc.1 ++ [reqSkill], acc.2 + 1)
  else
    match (fuzzyBest reqSkill cvSkills).2 with
    | some cvSkill => (acc.1 ++ [reqSkill ++ " (similar: " ++ cvSkill ++ ")"], acc.2 + 1)
    | none => acc

/-- `JobOfferAnalyzer._calculate_skill_match(required, cv_skills)`:
`(matched_skills, score)` with `score = match_count / len(required)`, and
`([], 0.0)` when either list is empty. -/
def calculateSkillMatch (required cvSkills : List String) : List String × ℚ :=
  if required = [] ∨ cvSkills = [] then ([], 0)
  else
    let r := required.foldl (matchStep cvSkills) ([], 0)
    (r.1, if required = [] then 0 else (r.2 : ℚ) / (required.length : ℚ))

/-- A required skill counts as found when it is in the candidate list
exactly, or some candidate skill has similarity ratio at least 0.7. -/
def skillFound (cvSkills : List String) (reqSkill : String) : Bool :=
  decide (reqSkill ∈ cvSkills) || cvSkills.any (fun c => decide ((7/10 : ℚ) ≤ ratio reqSkill c))

/-! ## Job-offer analyzer: ATS scoring
(`JobOfferAnalyzer._score_offer`, `job_offer_analyzer.py` lines 316–353,
with `_WEIGHTS` and `_EDU_ORDER` from lines 283–296.) -/

/-- `_EDU_ORDER.get(level, 0)`. -/
def eduOrder (s : String) : ℕ :=
  if s = "none" then 0
  else if s = "bac" then 1
  else if s = "bachelor" then 2
  else if s = "master" then 3
  else if s = "phd" then 4
  else 0

/-- The candidate's lower-cased skill set:
`set(map(str.lower, analysis.get('skills', cv.get('skills', fallback_cv_skills or []))))`.
`fallback` stands for `fallback_cv_skills or []`.  (When `analysis` is
present it always carries a `skills` key: `analyze_cvs` stores one.) -/
def cvSkillSet (cv : CV) (fallback : List String) : Finset String :=
  ((match cv.analysis with
    | some a => a.skills
    | none => cv.skills.getD fallback).map pyLower).toFinset

/-- The offer's skill set, union of its lower-cased explicit skills and
the extracted skill hints. -/
def offerSkillSet (offer : Offer) (reqs : Reqs) : Finset String :=
  (offer.skills.map pyLower).toFinset ∪ reqs.skill_hints.toFinset

/-- Skills component: `len(common) / max(1, len(offer_skills))` when the
offer has skills, else 1.0 when the candidate has any skill, else 0.0. -/
def skillsComponent (cv : CV) (offer : Offer) (reqs : Reqs) (fallback : List String) : ℚ :=
  if offerSkillSet offer reqs = ∅ then
    (if cvSkillSet cv fallback = ∅ then 0 else 1)
  else
    ((cvSkillSet cv fallback ∩ offerSkillSet offer reqs).card : ℚ) /
      ((max 1 (offerSkillSet offer reqs).card : ℕ) : ℚ)

/-- `float(analysis.get('years_experience') or 0)`. -/
def cvYears (cv : CV) : ℚ :=
  (cv.analysis.bind Analysis.years_experience).getD 0

/-- Experience component: 1.0 when no years are required, else
`min(1.0, cv_years / req_years)`. -/
def experienceComponent (cv : CV) (reqs : Reqs) : ℚ :=
  if reqs.required_years ≤ 0 then 1
  else min 1 (cvYears cv / reqs.required_years)

/-- The education level the scorer reads:
`str(analysis.get('education_level') or 'none').lower()`. -/
def cvEducationRead (cv : CV) : String :=
  pyLower (orDefault (cv.analysis.bind Analysis.education_level) "none")

/-- Education component: 1.0 when the candidate's rank reaches the
required rank, else `cv_rank / max(1, req_rank)`. -/
def educationComponent (cv : CV) (reqs : Reqs) : ℚ :=
  let cvRank := eduOrder (cvEducationRead cv)
  let reqRank := eduOrder (pyLower (orDefault (some reqs.required_education) "none"))
  if reqRank ≤ cvRank then 1
  else (cvRank : ℚ) / ((max 1 reqRank : ℕ) : ℚ)

/-- Location component: 1.0 for remote offers, else 1.0 when the
candidate does not prefer remote (`cv.get('preferences', {}).get('remote', True)`),
else 0.6. -/
def locationComponent (cv : CV) (offer : Offer) : ℚ :=
  if containsSub (pyLower offer.location) "remote" ||
      containsSub (pyLower offer.location) "télétravail" then 1
  else if cv.preferences_remote.getD true then 6/10
  else 1

/-- `JobOfferAnalyzer._score_offer`: the weighted total, rounded to 4
decimal places. -/
def scoreOffer (cv : CV) (offer : Offer) (reqs : Reqs) (fallback : List String) : ℚ :=
  pyRound4 (0.60 * skillsComponent cv offer reqs fallback
    + 0.20 * experienceComponent cv reqs
    + 0.15 * educationComponent cv reqs
    + 0.05 * locationComponent cv offer)

/-- The `cv_data` loop of `_analyze_single_offer` (`job_offer_analyzer.py`
lines 141–151): the best score over the supplied CVs, starting from
`best_score = -1.0` and keeping strictly greater scores, rounded; `None`
when no CV data is supplied. -/
def bestAtsScore (cvData : List CV) (offer : Offer) (reqs : Reqs) (fallback : List String) :
    Option ℚ :=
  if cvData.isEmpty then none
  else
    some (pyRound4 (cvData.foldl
      (fun best cv => if best < scoreOffer cv offer reqs fallback
        then scoreOffer cv offer reqs fallback else best)
      (-1)))

/-- Modelled from the spec (§4.14, Education row): the education component
stated from the candidate's and the offer's education ranks. -/
def specEducationComponent (candidateRank requiredRank : ℕ) : ℚ :=
  if requiredRank ≤ candidateRank then 1
  else (candidateRank : ℚ) / ((max 1 requiredRank : ℕ) : ℚ)

/-! ## CV analysis agent
(`CVAnalyzer.analyze_cvs`, `cv_analyzer.py` lines 53–120.)  The loop body
for one record: a record whose `analysis.skills` is already non-empty is
skipped; one without a usable `path` or whose PDF yields no text is left
as it is; otherwise a fresh analysis replaces `cv['analysis']`.
`reanalyze` abstracts the PDF-text extraction and NLP pipeline (tokenising,
`identify_skills`, `analyze_experiences`, the §4.3 extractors); it returns
`none` when no text could be extracted. -/

def analyzeCV (reanalyze : CV → Option Analysis) (cv : CV) : CV :=
  if (cv.analysis.map Analysis.skills).getD [] ≠ [] then cv
  else
    match cv.path with
    | none => cv
    | some p =>
      if p = "" then cv
      else
        match reanalyze cv with
        | none => cv
        | some a => { cv with analysis := some a }

/-- The whole `analyze_cvs` pass over the record list. -/
def analyzeCVs (reanalyze : CV → Option Analysis) (cvs : List CV) : List CV :=
  cvs.map (analyzeCV reanalyze)

/-! ## Notification agent
(`NotificationAgent`, `notification_agent.py`.)  E-mail dispatch is the
fallible external: `emailOk` tells whether `email_sender.send_email`
succeeds for an offer (an exception anywhere inside the per-offer `try`
block counts as failure).  The agent's in-memory state is the
`sent_notifications` key list; `dispatched` additionally logs every
successfully dispatched e-mail's offer key so dispatch counts can be
stated. -/

/-- The analyzed-offer dict fields the notification agent reads. -/
structure AnalyzedOffer where
  title : String
  company : String
  description : String
  url : String
  match_score : ℚ
  required_skills : List String
  matched_skills : List String
  deriving DecidableEq

/-- `f"{offer['title']}_{offer['company']}"`. -/
def offerKey (o : AnalyzedOffer) : String :=
  o.title ++ "_" ++ o.company

/-- Characters of the local part: `[a-zA-Z0-9._%+-]`. -/
def isLocalChar (c : Char) : Bool :=
  c.isAlpha || c.isDigit || c = '.' || c = '_' || c = '%' || c = '+' || c = '-'

/-- Characters of a domain segment between dots: `[a-zA-Z0-9-]`. -/
def isDomSegChar (c : Char) : Bool :=
  c.isAlpha || c.isDigit || c = '-'

/-- Full match of `[a-zA-Z0-9._%+-]+@[a-zA-Z0-9.-]+\.[a-zA-Z]{2,}`: one
`@`, a non-empty local part of local characters, and a domain that splits
at its last dot into a non-empty `[a-zA-Z0-9.-]+` part and an alphabetic
top-level part of length at least 2. -/
def emailChars (l : List Char) : Bool :=
  match splitOnChar '@' l with
  | [loc, dom] =>
    !loc.isEmpty && loc.all isLocalChar &&
      (let parts := splitOnChar '.' dom
       let tld := parts.getLastD []
       let front := parts.dropLast
       decide (2 ≤ parts.length) && !(List.intercalate ['.'] front).isEmpty &&
         front.all (fun seg => seg.all isDomSegChar) &&
         decide (2 ≤ tld.length) && tld.all Char.isAlpha)
  | _ => false

/-- `NotificationAgent._is_valid_email` (`notification_agent.py` lines
218–229): `bool(re.match(pattern, email))` with the pattern anchored on
both sides; the `$` anchor also accepts one trailing newline. -/
def validEmail (s : String) : Bool :=
  emailChars s.data || (s.data.getLast? == some '\n' && emailChars s.data.dropLast)

/-- Python string truthiness: `None` and `""` are falsy. -/
def truthyStr : Option String → Option String
  | some s => if s = "" then none else some s
  | none => none

/-- Recipient resolution (`notification_agent.py` lines 43–48): the
parameter when truthy, else the `NOTIFICATION_EMAIL` environment value
when truthy, else nothing. -/
def resolveRecipient (param env : Option String) : Option String :=
  match truthyStr param with
  | some s => some s
  | none => truthyStr env

/-- The per-offer body of the dispatch loop (`notification_agent.py`
lines 70–105): skip when the key was already sent and `force` is false;
else attempt the send, and on success record the key and count it. -/
def sendStep (emailOk : AnalyzedOffer → Bool) (force : Bool)
    (acc : ℕ × (List String × List String)) (o : AnalyzedOffer) :
    ℕ × (List String × List String) :=
  if offerKey o ∈ acc.2.1 ∧ force = false then acc
  else if emailOk o then
    (acc.1 + 1, (acc.2.1 ++ [offerKey o], acc.2.2 ++ [offerKey o]))
  else acc

/-- `NotificationAgent.send_notifications`.  State is
`(sent_notifications, dispatched)`; the result is the returned count and
the new state.  Mirrors the guards in order: no analyzed offers, recipient
resolution, e-mail validation, the `match_score ≥ min_match_score` filter,
then the dispatch loop. -/
def sendNotifications (emailOk : AnalyzedOffer → Bool) (minMatchScore : ℚ)
    (offers : List AnalyzedOffer) (recipientParam envRecipient : Option String)
    (force : Bool) (st : List String × List String) :
    ℕ × (List String × List String) :=
  if offers.isEmpty then (0, st)
  else
    match resolveRecipient recipientParam envRecipient with
    | none => (0, st)
    | some r =>
      if validEmail r then
        let matched := offers.filter (fun o => decide (minMatchScore ≤ o.match_score))
        if matched.isEmpty then (0, st)
        else matched.foldl (sendStep emailOk force) (0, st)
      else (0, st)

/-! `NotificationAgent._build_email_body` (`notification_agent.py` lines
115–216), cut at the assignments of the Python code: the header built up
to the matched-skill list, then either the missing-skills coaching section
or the congratulations line, then the closing text, optional letter and
signature, and a final `strip()`.  `descriptionText` is what the
translation `try` block resolves to (the machine translation when a key
is configured and the call succeeds, else the original description). -/

/-- `missing_skills = [s for s in required_skills if s not in matched_skills]`. -/
def missingSkills (o : AnalyzedOffer) : List String :=
  o.required_skills.filter (fun skill => decide (skill ∉ o.matched_skills))

/-- The first f-string of the body: title, company, match percentage. -/
def bodyLine1 (o : AnalyzedOffer) : String :=
  "Bonjour,\n\nBonne nouvelle ! Nous avons trouvé une opportunité qui correspond à votre profil :\n\n📋 Poste : "
    ++ o.title ++ "\n🏢 Entreprise : " ++ o.company
    ++ "\n📊 Taux de correspondance : " ++ toString (pyInt (o.match_score * 100)) ++ "%"

/-- The optional application-link line. -/
def bodyLine2 (o : AnalyzedOffer) : String :=
  if o.url ≠ "" then bodyLine1 o ++ ("\n🔗 Postuler : " ++ o.url) else bodyLine1 o

/-- The body up to the matched-skill list. -/
def bodyHeader (o : AnalyzedOffer) (descriptionText : String) : String :=
  bodyLine2 o ++ ("\n\nDescription :\n" ++ descriptionText
    ++ "\n\nCompétences requises :\n"
    ++ (if o.required_skills = [] then "N/A" else String.intercalate ", " o.required_skills)
    ++ "\n\n✅ Vos compétences correspondantes (" ++ toString o.matched_skills.length ++ "/"
    ++ toString o.required_skills.length ++ ") :\n"
    ++ (if o.matched_skills = [] then "Aucune correspondance"
        else String.intercalate ", " o.matched_skills))

/-- The congratulatory line of the body (without the preceding blank
line). -/
def congratsLine : String :=
  "🎯 Félicitations ! Vous possédez 100% des compétences requises pour ce poste !"

/-- The head of the missing-skills coaching section (without the preceding
blank line). -/
def coachingHead : String :=
  "📚 Compétences à développer pour un match à 100% ("

/-- The missing-skills coaching section appended when some required skill
is not verbatim among the matched ones. -/
def coachingSection (missing : List String) : String :=
  "\n\n📚 Compétences à développer pour un match à 100% (" ++ toString missing.length
    ++ (") :\n" ++ String.intercalate ", " missing
    ++ "\n\n💡 Conseil : Développer ces compétences augmenterait vos chances d'obtenir ce poste.")

/-- Closing text, optional motivation letter, and signature. -/
def bodyTail (letter : Option String) : String :=
  "\n\n        Ce poste semble bien correspondre à votre profil. Veuillez le consulter et envisager de postuler si vous êtes intéressé.\n        "
    ++ (match letter with
        | some ml => "\n\n---\nLETTRE DE MOTIVATION PERSONNALISÉE\n---\n\n" ++ ml
        | none => "")
    ++ "\n\nCordialement,\nL'équipe Agent_CV\n\n---\nCeci est une notification automatique."

/-- `NotificationAgent._build_email_body`: the full body, stripped. -/
def buildEmailBody (o : AnalyzedOffer) (descriptionText : String)
    (letter : Option String) : String :=
  pyStrip (bodyHeader o descriptionText
    ++ (if missingSkills o = []
        then "\n\n🎯 Félicitations ! Vous possédez 100% des compétences requises pour ce poste !"
        else coachingSection (missingSkills o))
    ++ bodyTail letter)

/-! ## Notification history logger
(`log_notification`, `app/utils/notification_logger.py` lines 51–71, the
JSON fallback path.)  The file's content is the record list; an append
truncates to the most recent 50 (`history[-50:]`). -/

structure NotificationRecord where
  timestamp : String
  recipient_email : String
  recipient_name : String
  job_count : ℤ
  status : String
  deriving DecidableEq

/-- One append through the JSON path of `log_notification`. -/
def logNotificationJson (history : List NotificationRecord) (r : NotificationRecord) :
    List NotificationRecord :=
  let h := history ++ [r]
  h.drop (h.length - 50)

/-! ## Rate limiter
(`RateLimiter.__enter__`, `src/utils/rate_limiter.py` lines 34–60.)
Wall-clock time is explicit: `now` is `time.time()` on entry and
`postSleepNow` the value `time.time()` returns after the sleep (used only
when a sleep happens; `time.sleep(w)` suspends for at least `w`, so a
caller's `postSleepNow` satisfies `now + wait ≤ postSleepNow`).  The
result is the slept duration and the limiter with its updated deque. -/

structure Limiter where
  max_requests : ℕ
  time_window : ℚ
  timestamps : List ℚ
  deriving DecidableEq

/-- The pruning `while` loop: pop timestamps `< now - time_window` from
the front. -/
def pruneTimestamps (window now : ℚ) (ts : List ℚ) : List ℚ :=
  ts.dropWhile (fun t => decide (t < now - window))

/-- One acquisition (`__enter__`): prune; when the count is at or above
`max_requests` and the computed wait is positive, sleep, re-prune at the
post-sleep clock and record that clock; otherwise record `now`.  (The
`head? = none` arm is unreachable for `max_requests ≥ 1`; Python would
raise an `IndexError` there.) -/
def acquire (lim : Limiter) (now postSleepNow : ℚ) : ℚ × Limiter :=
  let ts1 := pruneTimestamps lim.time_window now lim.timestamps
  if lim.max_requests ≤ ts1.length then
    match ts1.head? with
    | some oldest =>
      if 0 < oldest + lim.time_window - now then
        let ts2 := pruneTimestamps lim.time_window postSleepNow ts1
        (oldest + lim.time_window - now, { lim with timestamps := ts2 ++ [postSleepNow] })
      else (0, { lim with timestamps := ts1 ++ [now] })
    | none => (0, { lim with timestamps := ts1 ++ [now] })
  else (0, { lim with timestamps := ts1 ++ [now] })

/-! ## Concrete sample records used by witnesses and counterexamples -/

def sampleAnalysis : Analysis :=
  { skills := ["python"], experiences := [], years_experience := some 2,
    education := some "master", education_level := none, soft_skills := [], certifications := [] }

def replacementAnalysis : Analysis :=
  { skills := ["sql"], experiences := [], years_experience := none,
    education := none, education_level := none, soft_skills := [], certifications := [] }

def sampleCV : CV :=
  { name := some "Jo", email := none, path := some "cv.pdf", skills := none,
    preferences_remote := none, analysis := some sampleAnalysis }

/-- A CV record exactly as the CV analysis agent produces it for a PhD
holder: the level is stored under `analysis.education`; no
`education_level` key exists. -/
def phdAnalysis : Analysis :=
  { skills := ["python"], experiences := [], years_experience := some 5,
    education := some "phd", education_level := none, soft_skills := [], certifications := [] }

def cvPhd : CV :=
  { name := some "Dr", email := none, path := some "cv.pdf", skills := none,
    preferences_remote := none, analysis := some phdAnalysis }

def reqsMaster : Reqs :=
  { required_years := 0, required_education := "master", seniority := "mid", skill_hints := [] }

def negYearsAnalysis : Analysis :=
  { skills := [], experiences := [], years_experience := some (-2),
    education := none, education_level := none, soft_skills := [], certifications := [] }

def cvNegYears : CV :=
  { name := some "N", email := none, path := some "cv.pdf", skills := none,
    preferences_remote := none, analysis := some negYearsAnalysis }

def offerPy : Offer :=
  { title := "Data Analyst", company := "ACME", description := "", url := "",
    location := "", source := "", created := "", skills := ["python"] }

def reqsOneYear : Reqs :=
  { required_years := 1, required_education := "none", seniority := "mid", skill_hints := [] }

def reqsNone : Reqs :=
  { required_years := 0, required_education := "none", seniority := "mid", skill_hints := [] }

def sampleAnalyzedOffer : AnalyzedOffer :=
  { title := "Data Analyst", company := "ACME", description := "d", url := "",
    match_score := 1, required_skills := ["python"], matched_skills := ["python"] }

/-- An analyzed offer whose single required skill was matched only through
the ≥ 0.7 similarity path, as `_calculate_skill_match` annotates it. -/
def cexOffer : AnalyzedOffer :=
  { title := "T", company := "C", description := "d", url := "",
    match_score := 1, required_skills := ["python"],
    matched_skills := ["python (similar: pithon)"] }

def sampleRecords : List NotificationRecord :=
  (List.range 60).map (fun i =>
    { timestamp := toString i, recipient_email := "a@b.co", recipient_name := "A",
      job_count := 1, status := "success" })

/-! ## Theorems -/

lemma head_append {s : String} {c : Char} (t : String) (h : ∃ m, s.data = c :: m) :
    ∃ m, (s ++ t).data = c :: m := by
  obtain ⟨m, hm⟩ := h
  exact ⟨m ++ t.data, by rw [String.data_append, hm]; rfl⟩

lemma last_append (s : String) {t : String} {c : Char} (h : ∃ m, t.data = m ++ [c]) :
    ∃ m, (s ++ t).data = m ++ [c] := by
  obtain ⟨m, hm⟩ := h
  exact ⟨s.data ++ m, by rw [String.data_append, hm, List.append_assoc]⟩

lemma bodyLine1_head (o : AnalyzedOffer) : ∃ m, (bodyLine1 o).data = 'B' :: m := by
  unfold bodyLine1
  repeat apply head_append
  exact ⟨_, rfl⟩

lemma bodyLine2_head (o : AnalyzedOffer) : ∃ m, (bodyLine2 o).data = 'B' :: m := by
  unfold bodyLine2
  split_ifs with h
  · exact head_append _ (bodyLine1_head o)
  · exact bodyLine1_head o

lemma bodyHeader_head (o : AnalyzedOffer) (desc : String) :
    ∃ m, (bodyHeader o desc).data = 'B' :: m := by
  unfold bodyHeader
  exact head_append _ (bodyLine2_head o)

lemma bodyTail_last (letter : Option String) :
    ∃ m, (bodyTail letter).data = m ++ ['.'] := by
  unfold bodyTail
  apply last_append
  exact ⟨("\n\nCordialement,\nL'équipe Agent_CV\n\n---\nCeci est une notification automatique" : String).data, rfl⟩

lemma cons_append_last {l m1 m2 : List Char} {a b : Char}
    (h1 : l = a :: m1) (h2 : l = m2 ++ [b]) (hab : a ≠ b) :
    ∃ mid, l = a :: (mid ++ [b]) := by
  cases m2 with
  | nil =>
    exfalso
    apply hab
    have h3 : a :: m1 = [b] := by rw [← h1]; simpa using h2
    injection h3 with hab2 _
  | cons x xs =>
    have h3 : a :: m1 = x :: (xs ++ [b]) := by rw [← h1]; simpa using h2
    injection h3 with hax hm
    exact ⟨xs, by rw [h1, hm]⟩

lemma pyStrip_eq_self {s : String} {a b : Char} {mid : List Char}
    (hd : s.data = a :: (mid ++ [b])) (ha : a.isWhitespace = false)
    (hb : b.isWhitespace = false) : pyStrip s = s := by
  apply String.ext
  show ((s.data.dropWhile Char.isWhitespace).reverse.dropWhile Char.isWhitespace).reverse
    = s.data
  rw [hd, List.dropWhile_cons, if_neg (by simp [ha])]
  have h2 : (a :: (mid ++ [b])).reverse.dropWhile Char.isWhitespace =
      (a :: (mid ++ [b])).reverse := by
    rw [show (a :: (mid ++ [b])).reverse = b :: (mid.reverse ++ [a]) from by simp]
    rw [List.dropWhile_cons, if_neg (by simp [hb])]
  rw [h2, List.reverse_reverse]

lemma pyStrip_body (o : AnalyzedOffer) (desc m : String) (letter : Option String) :
    pyStrip (bodyHeader o desc ++ m ++ bodyTail letter) =
      bodyHeader o desc ++ m ++ bodyTail letter := by
  obtain ⟨m1, hh⟩ := bodyHeader_head o desc
  obtain ⟨k1, hk1⟩ := head_append (bodyTail letter) (head_append m ⟨m1, hh⟩)
  obtain ⟨k2, hk2⟩ := last_append (bodyHeader o desc ++ m) (bodyTail_last letter)
  obtain ⟨mid, hmid⟩ := cons_append_last hk1 hk2 (by decide)
  exact pyStrip_eq_self hmid (by decide) (by decide)

lemma containsSeq_intro {pat l : List Char} (x y : List Char) (h : l = x ++ (pat ++ y)) :
    containsSeq pat l = true := by
  unfold containsSeq
  rw [List.any_eq_true]
  refine ⟨x.length, ?_, ?_⟩
  · rw [List.mem_range, h]
    simp [List.length_append]
    omega
  · rw [h, List.drop_left, List.isPrefixOf_iff_prefix]
    exact List.prefix_append pat y

lemma containsSub_intro {s pat : String} (x y : String) (h : s = x ++ (pat ++ y)) :
    containsSub s pat = true := by
  unfold containsSub
  apply containsSeq_intro x.data y.data
  rw [h, String.data_append, String.data_append]

/-- C5: a CV record whose `analysis.skills` is already a non-empty list is
left entirely unchanged by another run of the CV analysis step — the
record is skipped, whatever the re-analysis pipeline would have produced
(`analyzeCVs` maps this per-record step over the record list). -/
theorem analyzeCV_skips_already_analyzed (reanalyze : CV → Option Analysis) (cv : CV)
    (a : Analysis) (ha : cv.analysis = some a) (hs : a.skills ≠ []) :
    analyzeCV reanalyze cv = cv := by
  unfold analyzeCV
  rw [ha]
  simp [hs]

theorem analyzeCV_skips_already_analyzed_witness :
    analyzeCV (fun _ => some replacementAnalysis) sampleCV = sampleCV :=
  analyzeCV_skips_already_analyzed (fun _ => some replacementAnalysis) sampleCV
    sampleAnalysis rfl (by decide)

/-- C2 (code bug): for a record whose analysis the CV analysis agent
produced, the ATS education component reads the absent `education_level`
key — `analyze_cvs` stores the level under `education` — so the
candidate's rank is always taken as 0.  For a PhD candidate against a
master requirement the code yields 0.0 where the documented formula
(1.0 since rank 4 ≥ rank 3) requires 1.0.  This contradicts
`compare_job_offers`'s own docstring (`job_offer_analyzer.py` line 70),
which asks `cv_data` analyses to provide `education_level`. -/
theorem educationComponent_ignores_cv_analyzer_education :
    educationComponent cvPhd reqsMaster = 0 ∧
    cvPhd.analysis.bind Analysis.education = some "phd" ∧
    specEducationComponent (eduOrder "phd") (eduOrder reqsMaster.required_education) = 1 := by
  refine ⟨?_, rfl, ?_⟩
  · have h1 : cvEducationRead cvPhd = "none" := rfl
    have h2 : pyLower (orDefault (some reqsMaster.required_education) "none") = "master" := rfl
    have e1 : eduOrder "none" = 0 := rfl
    have e2 : eduOrder "master" = 3 := rfl
    simp only [educationComponent, h1, h2, e1, e2]
    norm_num
  · have e3 : eduOrder "phd" = 4 := rfl
    have e4 : eduOrder reqsMaster.required_education = 3 := rfl
    simp only [specEducationComponent, e3, e4]
    norm_num

lemma logNotificationJson_as_drop (x : List NotificationRecord) (r : NotificationRecord) :
    logNotificationJson x r = (x ++ [r]).drop ((x ++ [r]).length - 50) := rfl

lemma drop50_append_left (t z : List NotificationRecord) (hz : 50 ≤ z.length) :
    (t ++ z).drop ((t ++ z).length - 50) = z.drop (z.length - 50) := by
  rw [List.drop_append_eq_append_drop]
  have h1 : t.drop ((t ++ z).length - 50) = [] := by
    apply List.drop_eq_nil_of_le
    simp [List.length_append]
    omega
  rw [h1]
  simp [List.length_append]
  congr 1
  omega

lemma drop50_drop50_append (y rs : List NotificationRecord) :
    (y.drop (y.length - 50) ++ rs).drop ((y.drop (y.length - 50) ++ rs).length - 50) =
      (y ++ rs).drop ((y ++ rs).length - 50) := by
  by_cases hy : y.length ≤ 50
  · rw [Nat.sub_eq_zero_of_le hy, List.drop_zero]
  · push_neg at hy
    have hlen : (y.drop (y.length - 50)).length = 50 := by
      simp [List.length_drop]
      omega
    have hz : 50 ≤ (y.drop (y.length - 50) ++ rs).length := by
      simp [List.length_append, hlen]
    calc (y.drop (y.length - 50) ++ rs).drop ((y.drop (y.length - 50) ++ rs).length - 50)
        = (y.take (y.length - 50) ++ (y.drop (y.length - 50) ++ rs)).drop
            ((y.take (y.length - 50) ++ (y.drop (y.length - 50) ++ rs)).length - 50) :=
          (drop50_append_left _ _ hz).symm
      _ = (y ++ rs).drop ((y ++ rs).length - 50) := by
          rw [← List.append_assoc, List.take_append_drop]

lemma foldl_log_eq (rs : List NotificationRecord) :
    ∀ x, rs ≠ [] →
      List.foldl logNotificationJson x rs = (x ++ rs).drop ((x ++ rs).length - 50) := by
  induction rs with
  | nil => intro x h; exact absurd rfl h
  | cons r rs ih =>
    intro x _
    rw [List.foldl_cons]
    by_cases hrs : rs = []
    · subst hrs
      simpa using logNotificationJson_as_drop x r
    · rw [ih _ hrs, logNotificationJson_as_drop]
      calc ((x ++ [r]).drop ((x ++ [r]).length - 50) ++ rs).drop
              (((x ++ [r]).drop ((x ++ [r]).length - 50) ++ rs).length - 50)
          = ((x ++ [r]) ++ rs).drop (((x ++ [r]) ++ rs).length - 50) :=
            drop50_drop50_append (x ++ [r]) rs
        _ = (x ++ r :: rs).drop ((x ++ r :: rs).length - 50) := by
            simp [List.append_assoc]

/-- C8: through the JSON-backed notification logger, after any non-empty
sequence of appends the history holds at most 50 records, and as soon as
at least 50 records have been appended it holds exactly the 50 most
recent ones (so 60 sequential appends leave exactly the last 50). -/
theorem logNotificationJson_cap (init rs : List NotificationRecord) (h : rs ≠ []) :
    (List.foldl logNotificationJson init rs).length ≤ 50 ∧
      (50 ≤ rs.length →
        List.foldl logNotificationJson init rs = rs.drop (rs.length - 50)) := by
  constructor
  · rw [foldl_log_eq rs init h]
    simp [List.length_drop]
    omega
  · intro h50
    rw [foldl_log_eq rs init h]
    exact drop50_append_left init rs h50

theorem logNotificationJson_cap_witness :
    (List.foldl logNotificationJson [] sampleRecords).length ≤ 50 ∧
      (50 ≤ sampleRecords.length →
        List.foldl logNotificationJson [] sampleRecords =
          sampleRecords.drop (sampleRecords.length - 50)) :=
  logNotificationJson_cap [] sampleRecords (by decide)

lemma skillsComponent_nonneg (cv : CV) (offer : Offer) (reqs : Reqs) (fb : List String) :
    0 ≤ skillsComponent cv offer reqs fb := by
  unfold skillsComponent
  split_ifs with h1 h2
  · exact le_rfl
  · norm_num
  · positivity

lemma skillsComponent_le_one (cv : CV) (offer : Offer) (reqs : Reqs) (fb : List String) :
    skillsComponent cv offer reqs fb ≤ 1 := by
  unfold skillsComponent
  split_ifs with h1 h2
  · norm_num
  · exact le_rfl
  · apply div_le_one_of_le
    · have hc : (cvSkillSet cv fb ∩ offerSkillSet offer reqs).card ≤
          (offerSkillSet offer reqs).card :=
        Finset.card_le_card Finset.inter_subset_right
      have hm : (offerSkillSet offer reqs).card ≤ max 1 (offerSkillSet offer reqs).card :=
        le_max_right _ _
      exact_mod_cast le_trans hc hm
    · positivity

lemma experienceComponent_nonneg (cv : CV) (reqs : Reqs) (h : 0 ≤ cvYears cv) :
    0 ≤ experienceComponent cv reqs := by
  unfold experienceComponent
  split_ifs with hr
  · norm_num
  · push_neg at hr
    exact le_min (by norm_num) (div_nonneg h (le_of_lt hr))

lemma experienceComponent_le_one (cv : CV) (reqs : Reqs) :
    experienceComponent cv reqs ≤ 1 := by
  unfold experienceComponent
  split_ifs with hr
  · exact le_rfl
  · exact min_le_left _ _

lemma educationComponent_nonneg (cv : CV) (reqs : Reqs) :
    0 ≤ educationComponent cv reqs := by
  unfold educationComponent
  dsimp only
  split_ifs with h
  · norm_num
  · positivity

lemma educationComponent_le_one (cv : CV) (reqs : Reqs) :
    educationComponent cv reqs ≤ 1 := by
  unfold educationComponent
  dsimp only
  split_ifs with h
  · exact le_rfl
  · push_neg at h
    apply div_le_one_of_le
    · have : eduOrder (cvEducationRead cv) ≤
          max 1 (eduOrder (pyLower (orDefault (some reqs.required_education) "none"))) :=
        le_trans (le_of_lt h) (le_max_right _ _)
      exact_mod_cast this
    · positivity

lemma locationComponent_eq (cv : CV) (offer : Offer) :
    locationComponent cv offer = 1 ∨ locationComponent cv offer = 6/10 := by
  unfold locationComponent
  split_ifs <;> simp

lemma locationComponent_ge (cv : CV) (offer : Offer) :
    6/10 ≤ locationComponent cv offer := by
  rcases locationComponent_eq cv offer with h | h <;> rw [h] <;> norm_num

lemma locationComponent_le_one (cv : CV) (offer : Offer) :
    locationComponent cv offer ≤ 1 := by
  rcases locationComponent_eq cv offer with h | h <;> rw [h] <;> norm_num

/-- C1: for every CV record with non-negative `years_experience` and every
offer/requirement pair, the per-pair ATS score is exactly the weighted sum
`0.60*skills + 0.20*experience + 0.15*education + 0.05*location` rounded
to 4 decimal places, and it lies in `[0, 1]`. -/
theorem scoreOffer_weighted_sum_and_bounds (cv : CV) (offer : Offer) (reqs : Reqs)
    (fb : List String) (h : 0 ≤ cvYears cv) :
    scoreOffer cv offer reqs fb =
      pyRound4 (0.60 * skillsComponent cv offer reqs fb
        + 0.20 * experienceComponent cv reqs
        + 0.15 * educationComponent cv reqs
        + 0.05 * locationComponent cv offer) ∧
      0 ≤ scoreOffer cv offer reqs fb ∧ scoreOffer cv offer reqs fb ≤ 1 := by
  have s0 := skillsComponent_nonneg cv offer reqs fb
  have s1 := skillsComponent_le_one cv offer reqs fb
  have e0 := experienceComponent_nonneg cv reqs h
  have e1 := experienceComponent_le_one cv reqs
  have d0 := educationComponent_nonneg cv reqs
  have d1 := educationComponent_le_one cv reqs
  have l0 := locationComponent_ge cv offer
  have l1 := locationComponent_le_one cv offer
  refine ⟨rfl, ?_, ?_⟩
  · unfold scoreOffer
    apply pyRound4_nonneg
    nlinarith
  · unfold scoreOffer
    apply pyRound4_le_one
    nlinarith

theorem scoreOffer_weighted_sum_and_bounds_witness :
    scoreOffer sampleCV offerPy reqsNone [] =
      pyRound4 (0.60 * skillsComponent sampleCV offerPy reqsNone []
        + 0.20 * experienceComponent sampleCV reqsNone
        + 0.15 * educationComponent sampleCV reqsNone
        + 0.05 * locationComponent sampleCV offerPy) ∧
      0 ≤ scoreOffer sampleCV offerPy reqsNone [] ∧
        scoreOffer sampleCV offerPy reqsNone [] ≤ 1 :=
  scoreOffer_weighted_sum_and_bounds sampleCV offerPy reqsNone []
    (by rw [show cvYears sampleCV = 2 from rfl]; norm_num)

lemma pyRound4_eq_self_of_mul_int {q : ℚ} {m : ℤ} (h : q * 10000 = (m : ℚ)) :
    pyRound4 q = q := by
  unfold pyRound4
  rw [h]
  have hr : roundHalfEven ((m : ℚ)) = m := by
    unfold roundHalfEven
    rw [Rat.num_intCast, Rat.den_intCast]
    simp
  rw [hr]
  have h10 : (10000 : ℚ) ≠ 0 := by norm_num
  field_simp
  linarith

lemma scoreOffer_ge_003 (cv : CV) (offer : Offer) (reqs : Reqs) (fb : List String)
    (h : 0 ≤ cvYears cv) : 3/100 ≤ scoreOffer cv offer reqs fb := by
  unfold scoreOffer
  have h3 : (3 : ℚ)/100 = ((300 : ℤ) : ℚ)/10000 := by norm_num
  rw [h3]
  apply le_pyRound4
  have s0 := skillsComponent_nonneg cv offer reqs fb
  have e0 := experienceComponent_nonneg cv reqs h
  have d0 := educationComponent_nonneg cv reqs
  have l0 := locationComponent_ge cv offer
  push_cast
  nlinarith

lemma bestFold_acc_le (offer : Offer) (reqs : Reqs) (fb : List String) (l : List CV) :
    ∀ acc : ℚ,
      acc ≤ l.foldl (fun best cv => if best < scoreOffer cv offer reqs fb
        then scoreOffer cv offer reqs fb else best) acc := by
  induction l with
  | nil => intro acc; simp
  | cons c l ih =>
    intro acc
    rw [List.foldl_cons]
    refine le_trans ?_ (ih _)
    dsimp only
    split_ifs with hc
    · exact le_of_lt hc
    · exact le_rfl

lemma bestFold_ge_elem (offer : Offer) (reqs : Reqs) (fb : List String) (c : CV) :
    ∀ (l : List CV) (acc : ℚ), c ∈ l →
      scoreOffer c offer reqs fb ≤
        l.foldl (fun best cv => if best < scoreOffer cv offer reqs fb
          then scoreOffer cv offer reqs fb else best) acc := by
  intro l
  induction l with
  | nil => intro acc hc; cases hc
  | cons hd tl ih =>
    intro acc hc
    rw [List.foldl_cons]
    rcases List.mem_cons.mp hc with hceq | hmem
    · subst hceq
      refine le_trans ?_ (bestFold_acc_le offer reqs fb tl _)
      dsimp only
      split_ifs with hlt
      · exact le_rfl
      · exact not_lt.mp hlt
    · exact ih _ hmem

/-- C10 (corrected): the ATS location component is always 1.0 or 0.6,
hence at least 0.6; and whenever at least one CV record is supplied —
provided every supplied record's `years_experience` is non-negative, which
the claim omitted — the offer's `ats_score` is at least 0.03, in
particular never 0.0. -/
theorem locationFloor_and_ats_positive (cvData : List CV) (offer : Offer) (reqs : Reqs)
    (fb : List String) (cv : CV) (h1 : cvData ≠ [])
    (h2 : ∀ c ∈ cvData, 0 ≤ cvYears c) :
    (locationComponent cv offer = 1 ∨ locationComponent cv offer = 6/10) ∧
      6/10 ≤ locationComponent cv offer ∧
      ∃ q, bestAtsScore cvData offer reqs fb = some q ∧ 3/100 ≤ q ∧ q ≠ 0 := by
  refine ⟨locationComponent_eq cv offer, locationComponent_ge cv offer, ?_⟩
  unfold bestAtsScore
  rw [if_neg (by simpa [List.isEmpty_iff] using h1)]
  refine ⟨_, rfl, ?_⟩
  obtain ⟨hd, tl, rfl⟩ : ∃ hd tl, cvData = hd :: tl := by
    cases cvData with
    | nil => exact absurd rfl h1
    | cons hd tl => exact ⟨hd, tl, rfl⟩
  have hmem : hd ∈ hd :: tl := List.mem_cons_self hd tl
  have hge := bestFold_ge_elem offer reqs fb hd (hd :: tl) (-1) hmem
  have hsc := scoreOffer_ge_003 hd offer reqs fb (h2 hd hmem)
  have hfold : (3 : ℚ)/100 ≤ (hd :: tl).foldl
      (fun best cv => if best < scoreOffer cv offer reqs fb
        then scoreOffer cv offer reqs fb else best) (-1) := le_trans hsc hge
  have hq : (3 : ℚ)/100 ≤ pyRound4 ((hd :: tl).foldl
      (fun best cv => if best < scoreOffer cv offer reqs fb
        then scoreOffer cv offer reqs fb else best) (-1)) := by
    have h3 : (3 : ℚ)/100 = ((300 : ℤ) : ℚ)/10000 := by norm_num
    rw [h3]
    apply le_pyRound4
    push_cast
    linarith
  exact ⟨hq, by intro h0; rw [h0] at hq; norm_num at hq⟩

theorem locationFloor_and_ats_positive_witness :
    (locationComponent sampleCV offerPy = 1 ∨ locationComponent sampleCV offerPy = 6/10) ∧
      6/10 ≤ locationComponent sampleCV offerPy ∧
      ∃ q, bestAtsScore [sampleCV] offerPy reqsNone [] = some q ∧ 3/100 ≤ q ∧ q ≠ 0 :=
  locationFloor_and_ats_positive [sampleCV] offerPy reqsNone [] sampleCV
    (by simp)
    (by
      intro c hc
      rw [List.mem_singleton] at hc
      subst hc
      rw [show cvYears sampleCV = 2 from rfl]
      norm_num)

/-- C10, the claim as stated is false: a CV record whose analysis carries
a negative `years_experience` drives the experience component, and with it
the whole weighted score, below 0.03 even though a CV record is
supplied. -/
theorem ats_below_003_with_negative_years :
    bestAtsScore [cvNegYears] offerPy reqsOneYear [] = some (-11/50) ∧
      ¬ ((3 : ℚ)/100 ≤ -11/50) := by
  have h1 : cvSkillSet cvNegYears [] = ∅ := rfl
  have h2 : offerSkillSet offerPy reqsOneYear = {"python"} := rfl
  have hsk : skillsComponent cvNegYears offerPy reqsOneYear [] = 0 := by
    unfold skillsComponent
    rw [h1, h2]
    simp
  have hex : experienceComponent cvNegYears reqsOneYear = -2 := by
    have hy : cvYears cvNegYears = -2 := rfl
    have hr : reqsOneYear.required_years = 1 := rfl
    unfold experienceComponent
    rw [hy, hr]
    norm_num
  have hed : educationComponent cvNegYears reqsOneYear = 1 := by
    have hcv : cvEducationRead cvNegYears = "none" := rfl
    have hrq : pyLower (orDefault (some reqsOneYear.required_education) "none") = "none" := rfl
    unfold educationComponent
    rw [hcv, hrq]
    simp [eduOrder]
  have hlo : locationComponent cvNegYears offerPy = 6/10 := by
    have hc1 : containsSub (pyLower offerPy.location) "remote" = false := rfl
    have hc2 : containsSub (pyLower offerPy.location) "télétravail" = false := rfl
    have hp : cvNegYears.preferences_remote.getD true = true := rfl
    unfold locationComponent
    rw [hc1, hc2, hp]
    simp
  have harg : (0.60 : ℚ) * 0 + 0.20 * (-2) + 0.15 * 1 + 0.05 * (6/10) = -11/50 := by norm_num
  have hscore : scoreOffer cvNegYears offerPy reqsOneYear [] = -11/50 := by
    unfold scoreOffer
    rw [hsk, hex, hed, hlo, harg]
    exact pyRound4_eq_self_of_mul_int (m := -2200) (by norm_num)
  constructor
  · unfold bestAtsScore
    rw [if_neg (by simp)]
    rw [List.foldl_cons, List.foldl_nil]
    rw [hscore]
    rw [if_pos (by norm_num)]
    rw [pyRound4_eq_self_of_mul_int (m := -2200) (by norm_num)]
  · norm_num

lemma foldl_fuzzyStep_isSome (r : String) (l : List String) :
    ∀ st : ℚ × Option String, st.2.isSome = true →
      ((l.foldl (fuzzyStep r) st).2).isSome = true := by
  induction l with
  | nil => intro st h; simpa using h
  | cons c l ih =>
    intro st h
    rw [List.foldl_cons]
    apply ih
    unfold fuzzyStep
    split_ifs with hc
    · rfl
    · exact h

lemma fuzzyBest_isSome_iff (r : String) (l : List String) :
    ((fuzzyBest r l).2).isSome = true ↔ ∃ c ∈ l, (7/10 : ℚ) ≤ ratio r c := by
  unfold fuzzyBest
  induction l with
  | nil => simp
  | cons c l ih =>
    rw [List.foldl_cons]
    by_cases hc : (7/10 : ℚ) ≤ ratio r c
    · have h0 : (0 : ℚ) < ratio r c := lt_of_lt_of_le (by norm_num) hc
      have hstep : fuzzyStep r (0, none) c = (ratio r c, some c) := by
        unfold fuzzyStep
        exact if_pos ⟨h0, hc⟩
      rw [hstep]
      constructor
      · intro _
        exact ⟨c, List.mem_cons_self c l, hc⟩
      · intro _
        exact foldl_fuzzyStep_isSome r l _ rfl
    · have hstep : fuzzyStep r (0, none) c = (0, none) := by
        unfold fuzzyStep
        exact if_neg (fun hand => hc hand.2)
      rw [hstep, ih]
      constructor
      · rintro ⟨c', hm, hr⟩
        exact ⟨c', List.mem_cons_of_mem _ hm, hr⟩
      · rintro ⟨c', hm, hr⟩
        rcases List.mem_cons.mp hm with hce | hm'
        · exact absurd (hce ▸ hr) hc
        · exact ⟨c', hm', hr⟩

lemma fuzzyBest_eq_none_iff (r : String) (l : List String) :
    (fuzzyBest r l).2 = none ↔ ¬ ∃ c ∈ l, (7/10 : ℚ) ≤ ratio r c := by
  rw [← fuzzyBest_isSome_iff]
  cases (fuzzyBest r l).2 <;> simp

lemma foldl_matchStep_count (cvSkills : List String) (required : List String) :
    ∀ acc : List String × ℕ,
      (required.foldl (matchStep cvSkills) acc).2 =
        acc.2 + required.countP (skillFound cvSkills) := by
  induction required with
  | nil => intro acc; simp
  | cons r rs ih =>
    intro acc
    rw [List.foldl_cons, ih, List.countP_cons]
    by_cases hm : r ∈ cvSkills
    · have hstep : matchStep cvSkills acc r = (acc.1 ++ [r], acc.2 + 1) := by
        unfold matchStep
        exact if_pos hm
      have hp : skillFound cvSkills r = true := by
        unfold skillFound
        simp [hm]
      rw [hstep, hp]
      simp
      omega
    · by_cases hf : ∃ c ∈ cvSkills, (7/10 : ℚ) ≤ ratio r c
      · obtain ⟨x, hx⟩ := Option.isSome_iff_exists.mp ((fuzzyBest_isSome_iff r cvSkills).mpr hf)
        have hstep : matchStep cvSkills acc r =
            (acc.1 ++ [r ++ " (similar: " ++ x ++ ")"], acc.2 + 1) := by
          unfold matchStep
          rw [if_neg hm, hx]
        have hp : skillFound cvSkills r = true := by
          obtain ⟨c, hcm, hcr⟩ := hf
          unfold skillFound
          rw [Bool.or_eq_true, List.any_eq_true]
          exact Or.inr ⟨c, hcm, decide_eq_true hcr⟩
        rw [hstep, hp]
        simp
        omega
      · have hstep : matchStep cvSkills acc r = acc := by
          unfold matchStep
          rw [if_neg hm, (fuzzyBest_eq_none_iff r cvSkills).mpr hf]
        have hp : skillFound cvSkills r = false := by
          unfold skillFound
          simp only [Bool.or_eq_false_iff, List.any_eq_false]
          refine ⟨decide_eq_false hm, ?_⟩
          intro c hcm
          rw [decide_eq_true_eq]
          intro hcr
          exact hf ⟨c, hcm, hcr⟩
        rw [hstep, hp]
        simp

/-- C3: the basic skill-match score, as the analyzer computes it on the
lower-cased/stripped skill lists: for a non-empty required list of length
N it equals exactly `k/N` where `k` counts the required skills found among
the candidate skills (exactly, or by a similarity ratio of at least 0.7),
and it lies in `[0, 1]`; when either input list is empty the score
is 0. -/
theorem calculateSkillMatch_score_eq (required cvSkills : List String) :
    (required ≠ [] →
      (calculateSkillMatch (required.map normSkill) (cvSkills.map normSkill)).2 =
        ((required.map normSkill).countP (skillFound (cvSkills.map normSkill)) : ℚ) /
          (required.length : ℚ) ∧
      0 ≤ (calculateSkillMatch (required.map normSkill) (cvSkills.map normSkill)).2 ∧
      (calculateSkillMatch (required.map normSkill) (cvSkills.map normSkill)).2 ≤ 1) ∧
    ((required = [] ∨ cvSkills = []) →
      (calculateSkillMatch (required.map normSkill) (cvSkills.map normSkill)).2 = 0) := by
  have hlenR : (required.map normSkill).length = required.length := List.length_map _ _
  constructor
  · intro hreq
    have hreqm : required.map normSkill ≠ [] := by simpa using hreq
    unfold calculateSkillMatch
    by_cases hC : cvSkills.map normSkill = []
    · rw [if_pos (Or.inr hC)]
      have hcnt : (required.map normSkill).countP (skillFound (cvSkills.map normSkill)) = 0 := by
        rw [hC]
        simp [List.countP_eq_zero, skillFound]
      rw [hcnt]
      norm_num
    · rw [if_neg (not_or.mpr ⟨hreqm, hC⟩)]
      dsimp only
      rw [if_neg hreqm, foldl_matchStep_count]
      simp only [zero_add]
      have hk : (required.map normSkill).countP (skillFound (cvSkills.map normSkill)) ≤
          required.length := by
        rw [← hlenR]
        exact List.countP_le_length _
      refine ⟨by rw [hlenR], ?_, ?_⟩
      · rw [hlenR]
        positivity
      · rw [hlenR]
        apply div_le_one_of_le
        · exact_mod_cast hk
        · positivity
  · intro h
    unfold calculateSkillMatch
    rcases h with h | h
    · rw [if_pos (Or.inl (by simp [h]))]
    · rw [if_pos (Or.inr (by simp [h]))]

/-- C9: for a limiter with `max_requests = 2`, `time_window = 1`, a third
acquisition finding both recorded timestamps still inside the trailing
window sleeps for exactly `(oldest + time_window) - now` (a positive
duration, so the clock reaches at least `oldest + time_window`), then
re-prunes at the post-sleep clock and records that clock as its own
timestamp. -/
theorem acquire_third_waits (t1 t2 now postSleepNow : ℚ)
    (h12 : t1 ≤ t2) (h2n : t2 ≤ now) (hwin : now - 1 < t1) :
    acquire ⟨2, 1, [t1, t2]⟩ now postSleepNow =
      (t1 + 1 - now, ⟨2, 1, pruneTimestamps 1 postSleepNow [t1, t2] ++ [postSleepNow]⟩) ∧
      0 < t1 + 1 - now := by
  have hn1 : ¬ (t1 < now - 1) := not_lt.mpr (le_of_lt hwin)
  have hpos : 0 < t1 + 1 - now := by linarith
  have hp : pruneTimestamps 1 now [t1, t2] = [t1, t2] := by
    simp [pruneTimestamps, List.dropWhile_cons, hn1]
  constructor
  · unfold acquire
    simp only [hp]
    simp [hpos]
  · exact hpos

theorem acquire_third_waits_witness :
    acquire ⟨2, 1, [0, 1/2]⟩ (1/2) (3/2) =
      (0 + 1 - 1/2, ⟨2, 1, pruneTimestamps 1 (3/2) [0, 1/2] ++ [3/2]⟩) ∧
      0 < (0 : ℚ) + 1 - 1/2 :=
  acquire_third_waits 0 (1/2) (1/2) (3/2) (by norm_num) (by norm_num) (by norm_num)

/-- C7: when the recipient e-mail resolves to nothing (no parameter, no
environment override) or resolves to a string the e-mail pattern rejects,
`send_notifications` returns 0 and has no side effect: nothing is
dispatched and the sent-notification list is unchanged. -/
theorem sendNotifications_invalid_recipient (emailOk : AnalyzedOffer → Bool)
    (minMatchScore : ℚ) (offers : List AnalyzedOffer) (param env : Option String)
    (force : Bool) (st : List String × List String)
    (h : ∀ r, resolveRecipient param env = some r → validEmail r = false) :
    sendNotifications emailOk minMatchScore offers param env force st = (0, st) := by
  unfold sendNotifications
  cases hoff : offers.isEmpty
  · cases hres : resolveRecipient param env with
    | none => simp [hres]
    | some r => simp [hres, h r hres]
  · simp

/-- C4 (corrected): the e-mail body carries the "100% match"
congratulatory line exactly when every required skill appears verbatim in
`matched_skills` — that is, was matched exactly; fuzzy matches are
annotated `"<required> (similar: <candidate>)"` and so count as missing
here — and otherwise carries the missing-skills coaching section, listing
exactly the required skills that are not verbatim in `matched_skills`. -/
theorem buildEmailBody_sections (o : AnalyzedOffer) (desc : String) (letter : Option String) :
    (missingSkills o = [] ↔ ∀ s ∈ o.required_skills, s ∈ o.matched_skills) ∧
    (missingSkills o = [] →
      containsSub (buildEmailBody o desc letter) congratsLine = true) ∧
    (missingSkills o ≠ [] →
      containsSub (buildEmailBody o desc letter) coachingHead = true ∧
      containsSub (buildEmailBody o desc letter)
        (String.intercalate ", " (missingSkills o)) = true) := by
  refine ⟨?_, ?_, ?_⟩
  · unfold missingSkills
    rw [List.filter_eq_nil_iff]
    simp
  · intro hm
    unfold buildEmailBody
    rw [if_pos hm, pyStrip_body]
    apply containsSub_intro (bodyHeader o desc ++ "\n\n") (bodyTail letter)
    rw [show ("\n\n🎯 Félicitations ! Vous possédez 100% des compétences requises pour ce poste !" : String) = "\n\n" ++ congratsLine from rfl]
    simp [String.append_assoc]
  · intro hm
    unfold buildEmailBody
    rw [if_neg hm, pyStrip_body]
    constructor
    · apply containsSub_intro (bodyHeader o desc ++ "\n\n")
        (toString (missingSkills o).length ++ ((") :\n"
          ++ String.intercalate ", " (missingSkills o)
          ++ "\n\n💡 Conseil : Développer ces compétences augmenterait vos chances d'obtenir ce poste.")
          ++ bodyTail letter))
      unfold coachingSection
      rw [show ("\n\n📚 Compétences à développer pour un match à 100% (" : String) = "\n\n" ++ coachingHead from rfl]
      simp [String.append_assoc]
    · apply containsSub_intro
        (bodyHeader o desc
          ++ ("\n\n📚 Compétences à développer pour un match à 100% ("
            ++ toString (missingSkills o).length ++ ") :\n"))
        ("\n\n💡 Conseil : Développer ces compétences augmenterait vos chances d'obtenir ce poste."
          ++ bodyTail letter)
      unfold coachingSection
      simp [String.append_assoc]

/-- C4, the claim as stated is false: for an offer whose only required
skill is matched through the ≥ 0.7 similarity path (here `"python"`
against candidate skill `"pithon"`, score 1.0 — a 100% match), the body
still carries the missing-skills coaching section and not the
congratulatory line, because the annotated entry
`"python (similar: pithon)"` is not the verbatim skill. -/
theorem fuzzy_match_still_listed_missing :
    (calculateSkillMatch ["python"] ["pithon"]).1 = ["python (similar: pithon)"] ∧
    (calculateSkillMatch ["python"] ["pithon"]).2 = 1 ∧
    containsSub (buildEmailBody cexOffer "d" none) congratsLine = false ∧
    containsSub (buildEmailBody cexOffer "d" none) coachingHead = true := by
  have hratio : (7/10 : ℚ) ≤ ratio "python" "pithon" ∧ (0 : ℚ) < ratio "python" "pithon" := by
    have h : mbSize "python".data "pithon".data 0 6 0 6 13 = 5 := by decide
    unfold ratio
    simp only [String.data]
    norm_num [h]
  have hfz : fuzzyBest "python" ["pithon"] = (ratio "python" "pithon", some "pithon") := by
    unfold fuzzyBest
    rw [List.foldl_cons, List.foldl_nil]
    unfold fuzzyStep
    rw [if_pos ⟨hratio.2, hratio.1⟩]
  have hcalc : calculateSkillMatch ["python"] ["pithon"] =
      (["python (similar: pithon)"], 1) := by
    unfold calculateSkillMatch
    rw [if_neg (by simp)]
    dsimp only
    rw [List.foldl_cons, List.foldl_nil]
    unfold matchStep
    rw [if_neg (by decide), hfz]
    rw [if_neg (by decide)]
    norm_num
    rfl
  have hms : toString (pyInt (cexOffer.match_score * 100)) = "100" := by
    rw [show cexOffer.match_score * 100 = (100 : ℚ) from by
      rw [show cexOffer.match_score = (1 : ℚ) from rfl]; norm_num]
    rfl
  refine ⟨by rw [hcalc], by rw [hcalc], ?_, ?_⟩
  · unfold buildEmailBody bodyHeader bodyLine2 bodyLine1
    rw [hms]
    decide
  · unfold buildEmailBody bodyHeader bodyLine2 bodyLine1
    rw [hms]
    decide

lemma sendStep_delta (emailOk : AnalyzedOffer → Bool) (force : Bool)
    (acc : ℕ × (List String × List String)) (o : AnalyzedOffer) :
    (sendStep emailOk force acc o).1 + acc.2.2.length =
      acc.1 + (sendStep emailOk force acc o).2.2.length := by
  unfold sendStep
  split_ifs with h1 h2
  · rfl
  · simp [List.length_append]
    omega
  · rfl

lemma foldl_sendStep_count (emailOk : AnalyzedOffer → Bool) (force : Bool)
    (l : List AnalyzedOffer) :
    ∀ acc : ℕ × (List String × List String),
      (l.foldl (sendStep emailOk force) acc).1 + acc.2.2.length =
        acc.1 + (l.foldl (sendStep emailOk force) acc).2.2.length := by
  induction l with
  | nil => intro acc; rfl
  | cons o l ih =>
    intro acc
    rw [List.foldl_cons]
    have h1 := ih (sendStep emailOk force acc o)
    have h2 := sendStep_delta emailOk force acc o
    omega

/-- C6: with a fresh in-memory state and a dispatch that succeeds, the
same matched offer is dispatched exactly once across two `force = false`
calls (the key recorded by the first call suppresses the second), and once
per call across two `force = true` calls; and in every call the returned
count equals the number of e-mails the call successfully dispatched. -/
theorem sendNotifications_once_unless_forced (emailOk : AnalyzedOffer → Bool)
    (minMatchScore : ℚ) (o : AnalyzedOffer) (param env : Option String) (r : String)
    (hr : resolveRecipient param env = some r) (hv : validEmail r = true)
    (hm : minMatchScore ≤ o.match_score) (hok : emailOk o = true) :
    sendNotifications emailOk minMatchScore [o] param env false ([], []) =
      (1, ([offerKey o], [offerKey o])) ∧
    sendNotifications emailOk minMatchScore [o] param env false
        ([offerKey o], [offerKey o]) = (0, ([offerKey o], [offerKey o])) ∧
    sendNotifications emailOk minMatchScore [o] param env true ([], []) =
      (1, ([offerKey o], [offerKey o])) ∧
    sendNotifications emailOk minMatchScore [o] param env true
        ([offerKey o], [offerKey o]) =
      (1, ([offerKey o, offerKey o], [offerKey o, offerKey o])) ∧
    ∀ (offers : List AnalyzedOffer) (force : Bool) (st : List String × List String),
      (sendNotifications emailOk minMatchScore offers param env force st).1 + st.2.length =
        (sendNotifications emailOk minMatchScore offers param env force st).2.2.length := by
  have hfil : [o].filter (fun o' => decide (minMatchScore ≤ o'.match_score)) = [o] := by
    simp [List.filter_cons, hm]
  refine ⟨?_, ?_, ?_, ?_, ?_⟩
  · unfold sendNotifications
    rw [hr]
    simp only [List.isEmpty_cons, Bool.false_eq_true, if_false, if_pos hv, hfil]
    rw [List.foldl_cons, List.foldl_nil]
    unfold sendStep
    rw [if_neg (by simp), if_pos hok]
    simp
  · unfold sendNotifications
    rw [hr]
    simp only [List.isEmpty_cons, Bool.false_eq_true, if_false, if_pos hv, hfil]
    rw [List.foldl_cons, List.foldl_nil]
    unfold sendStep
    rw [if_pos (by simp)]
  · unfold sendNotifications
    rw [hr]
    simp only [List.isEmpty_cons, Bool.false_eq_true, if_false, if_pos hv, hfil]
    rw [List.foldl_cons, List.foldl_nil]
    unfold sendStep
    rw [if_neg (by simp), if_pos hok]
    simp
  · unfold sendNotifications
    rw [hr]
    simp only [List.isEmpty_cons, Bool.false_eq_true, if_false, if_pos hv, hfil]
    rw [List.foldl_cons, List.foldl_nil]
    unfold sendStep
    rw [if_neg (by simp), if_pos hok]
    simp
  · intro offers force st
    unfold sendNotifications
    cases hoff : offers.isEmpty
    · cases hres : resolveRecipient param env with
      | none => simp
      | some r' =>
        simp only
        by_cases hv' : validEmail r'
        · rw [if_pos hv']
          by_cases hmt : (offers.filter (fun o' => decide (minMatchScore ≤ o'.match_score))).isEmpty
          · rw [if_pos hmt]
            simp
          · rw [if_neg hmt]
            have := foldl_sendStep_count emailOk force
              (offers.filter (fun o' => decide (minMatchScore ≤ o'.match_score))) (0, st)
            simpa using this
        · rw [if_neg hv']
          simp
    · simp

theorem sendNotifications_once_unless_forced_witness :
    sendNotifications (fun _ => true) (7/10) [sampleAnalyzedOffer] (some "a@b.co") none
        false ([], []) =
      (1, ([offerKey sampleAnalyzedOffer], [offerKey sampleAnalyzedOffer])) ∧
    sendNotifications (fun _ => true) (7/10) [sampleAnalyzedOffer] (some "a@b.co") none
        false ([offerKey sampleAnalyzedOffer], [offerKey sampleAnalyzedOffer]) =
      (0, ([offerKey sampleAnalyzedOffer], [offerKey sampleAnalyzedOffer])) ∧
    sendNotifications (fun _ => true) (7/10) [sampleAnalyzedOffer] (some "a@b.co") none
        true ([], []) =
      (1, ([offerKey sampleAnalyzedOffer], [offerKey sampleAnalyzedOffer])) ∧
    sendNotifications (fun _ => true) (7/10) [sampleAnalyzedOffer] (some "a@b.co") none
        true ([offerKey sampleAnalyzedOffer], [offerKey sampleAnalyzedOffer]) =
      (1, ([offerKey sampleAnalyzedOffer, offerKey sampleAnalyzedOffer],
        [offerKey sampleAnalyzedOffer, offerKey sampleAnalyzedOffer])) ∧
    ∀ (offers : List AnalyzedOffer) (force : Bool) (st : List String × List String),
      (sendNotifications (fun _ => true) (7/10) offers (some "a@b.co") none force st).1 +
          st.2.length =
        (sendNotifications (fun _ => true) (7/10) offers (some "a@b.co") none force
          st).2.2.length :=
  sendNotifications_once_unless_forced (fun _ => true) (7/10) sampleAnalyzedOffer
    (some "a@b.co") none "a@b.co" rfl (by decide)
    (by rw [show sampleAnalyzedOffer.match_score = 1 from rfl]; norm_num) rfl

theorem sendNotifications_invalid_recipient_witness :
    sendNotifications (fun _ => true) (7/10) [sampleAnalyzedOffer]
      (some "not-an-email") none false ([], []) = (0, ([], [])) :=
  sendNotifications_invalid_recipient (fun _ => true) (7/10) [sampleAnalyzedOffer]
    (some "not-an-email") none false ([], [])
    (by
      intro r hr
      have hr2 : r = "not-an-email" := by
        simpa [resolveRecipient, truthyStr] using hr.symm
      subst hr2
      decide)

end AgentCV
